import Mathlib

/-!
Shallow embedding of the EarnKit usage-ledger core: the `track` / `capture` /
`release` lifecycle routes, the top-up confirmation worker, and the SDK retry
loop.  Balances use exact arithmetic: `ethBalance : ℚ` (DECIMAL(65,30)),
`creditBalance : ℤ` (BIGINT).  Database rows are lists of records; Prisma's
conditional updates (`update` with an extra `where` filter, error P2025 when no
row matches) are modelled as `Option`-returning updates, and
`prisma.$transaction` as all-or-nothing state transitions (an error returns the
original state).
-/

namespace EarnKit

/-- `FeeModelType` enum from the Prisma schema. -/
inductive FeeModelType where
  | FREE_TIER
  | CREDIT_BASED
deriving DecidableEq, Repr

/-- `UsageEventStatus` enum from the Prisma schema. -/
inductive UsageEventStatus where
  | PENDING
  | CAPTURED
  | CANCELLED
  | EXPIRED
deriving DecidableEq, Repr

/-- `TopUpStatus` enum from the Prisma schema. -/
inductive TopUpStatus where
  | PENDING
  | CONFIRMED
  | FAILED
deriving DecidableEq, Repr

/-- The JSONB `feeModelConfig` column, as read through the unchecked casts
`agent.feeModelConfig as FreeTierConfig` / `as CreditBasedConfig`: all fields
are available; which ones are read depends on `feeModelType`. -/
structure FeeModelConfig where
  threshold : ℕ
  rate : ℚ
  creditsPerPrompt : ℤ
deriving DecidableEq, Repr

/-- The `Agent` row (the fields the billing routes select). -/
structure Agent where
  id : String
  feeModelType : FeeModelType
  feeModelConfig : FeeModelConfig
deriving DecidableEq, Repr

/-- The `UserBalance` row, primary key (`userWalletAddress`, `agentId`). -/
@[ext]
structure UserBalance where
  userWalletAddress : String
  agentId : String
  ethBalance : ℚ
  creditBalance : ℤ
deriving DecidableEq, Repr

/-- The `UsageEvent` row. -/
@[ext]
structure UsageEvent where
  id : String
  status : UsageEventStatus
  feeDeducted : Option ℚ
  creditsDeducted : Option ℤ
  idempotencyKey : Option String
  agentId : String
  userWalletAddress : String
deriving DecidableEq, Repr

/-- The `TopUpTransaction` row, primary key `txHash`.  `amountInEth` is stored
as an exact decimal string and parsed with `new Prisma.Decimal(amountInEth)`
at confirmation time; we carry the exact value directly. -/
@[ext]
structure TopUpTransaction where
  txHash : String
  status : TopUpStatus
  userWalletAddress : String
  agentId : String
  amountInEth : ℚ
  creditsToTopUp : Option ℤ
  errorMessage : Option String
deriving DecidableEq, Repr

/-- The whole persistent store. -/
@[ext]
structure DbState where
  agents : List Agent
  balances : List UserBalance
  events : List UsageEvent
  topUps : List TopUpTransaction
deriving DecidableEq, Repr

/-- `tx.agent.findUnique(\x7bwhere: \x7bid: agentId\x7d\x7d)`. -/
def DbState.findAgent (db : DbState) (agentId : String) : Option Agent :=
  db.agents.find? (fun a => a.id == agentId)

/-- `tx.usageEvent.findUnique` on the (`agentId`, `idempotencyKey`) unique
index. -/
def DbState.findEventByIdemKey (db : DbState) (agentId key : String) :
    Option UsageEvent :=
  db.events.find? (fun e => e.agentId == agentId && e.idempotencyKey == some key)

/-- `findUnique` on the `UserBalance` primary key. -/
def DbState.findBalance (db : DbState) (w a : String) : Option UserBalance :=
  db.balances.find? (fun r => r.userWalletAddress == w && r.agentId == a)

/-- `findUnique` on the `TopUpTransaction` primary key. -/
def DbState.findTopUp (db : DbState) (txHash : String) : Option TopUpTransaction :=
  db.topUps.find? (fun t => t.txHash == txHash)

/-- A minimal JSON value type, used to record the exact shape the `track`
route places at `data.eventId` in its response body. -/
inductive JsonVal where
  | str : String → JsonVal
  | obj : List (String × JsonVal) → JsonVal
deriving Repr

/-! ## The track route (`POST /api/track`) -/

/-- The validated body of a `track` request (`trackRequestBodySchema`). -/
structure TrackRequest where
  agentId : String
  walletAddress : String
  idempotencyKey : Option String
  creditsToDeduct : Option ℤ

/-- The `track` route's HTTP outcome: on success (HTTP 200) the body is
`\x7bdata: \x7beventId: v\x7d\x7d` where `v` is the recorded `JsonVal`; on failure it is
an error body with the given status and message. -/
inductive TrackResp where
  | success (eventIdField : JsonVal)
  | failure (status : ℕ) (message : String)

/-- `tx.usageEvent.count(\x7bwhere: \x7bagentId, userWalletAddress, status: "CAPTURED"\x7d\x7d)`:
only CAPTURED events are counted. -/
def usageCountCaptured (db : DbState) (agentId w : String) : ℕ :=
  (db.events.filter (fun e =>
    e.agentId == agentId && e.userWalletAddress == w &&
      e.status == UsageEventStatus.CAPTURED)).length

/-- `tx.userBalance.update` with
`where: \x7buserWalletAddress_agentId, ethBalance: \x7bgte: fee\x7d\x7d` and
`data: \x7bethBalance: \x7bdecrement: fee\x7d\x7d`.  Returns `none` (Prisma error
P2025) exactly when no row satisfies the guarded `where` clause. -/
def decrementEthGuarded (rows : List UserBalance) (w a : String) (fee : ℚ) :
    Option (List UserBalance) :=
  if rows.any (fun r =>
      r.userWalletAddress == w && r.agentId == a && decide (fee ≤ r.ethBalance)) then
    some (rows.map (fun r =>
      if r.userWalletAddress == w && r.agentId == a && decide (fee ≤ r.ethBalance) then
        { r with ethBalance := r.ethBalance - fee }
      else r))
  else none

/-- Same conditional decrement for `creditBalance` (`gte`/`decrement` on the
credit column). -/
def decrementCreditGuarded (rows : List UserBalance) (w a : String) (cost : ℤ) :
    Option (List UserBalance) :=
  if rows.any (fun r =>
      r.userWalletAddress == w && r.agentId == a && decide (cost ≤ r.creditBalance)) then
    some (rows.map (fun r =>
      if r.userWalletAddress == w && r.agentId == a && decide (cost ≤ r.creditBalance) then
        { r with creditBalance := r.creditBalance - cost }
      else r))
  else none

/-- The core fee logic of the `track` transaction (part_007 lines 59-146):
given the agent, decide and apply the deduction.  Returns the updated balance
table together with the `feeToDeduct` / `creditsCost` values that will be
recorded on the new event, or a 402 error. -/
def trackFeeLogic (db : DbState) (feeModelType : FeeModelType)
    (config : FeeModelConfig) (agentId walletAddress : String)
    (creditsToDeduct : Option ℤ) :
    Except (ℕ × String) (List UserBalance × Option ℚ × Option ℤ) :=
  match feeModelType with
  | FeeModelType.FREE_TIER =>
    let usageCount := usageCountCaptured db agentId walletAddress
    if config.threshold ≤ usageCount then
      match decrementEthGuarded db.balances walletAddress agentId config.rate with
      | none => Except.error (402, "Insufficient funds. Please top up your balance.")
      | some balances => Except.ok (balances, some config.rate, none)
    else
      Except.ok (db.balances, none, none)
  | FeeModelType.CREDIT_BASED =>
    let creditsCost : ℤ := creditsToDeduct.getD config.creditsPerPrompt
    match decrementCreditGuarded db.balances walletAddress agentId creditsCost with
    | none => Except.error (402, "Insufficient credits. Please buy more.")
    | some balances => Except.ok (balances, none, some creditsCost)

/-- The `track` route (part_007).  `newId` is the cuid Prisma would generate
for the created event.  The `prisma.$transaction` wrapper makes the body
all-or-nothing: an error leaves the store untouched.  On the idempotent replay
path the transaction callback returns the object `\x7beventId: existingEvent.id\x7d`,
whereas the fresh path returns the bare id string `newEvent.id`; both are then
wrapped as `\x7bdata: \x7beventId: …\x7d\x7d`. -/
def track (db : DbState) (newId : String) (req : TrackRequest) :
    DbState × TrackResp :=
  match db.findAgent req.agentId with
  | none => (db, TrackResp.failure 404 "Agent not found")
  | some agent =>
    match req.idempotencyKey.bind (fun k => db.findEventByIdemKey req.agentId k) with
    | some existingEvent =>
        (db, TrackResp.success (JsonVal.obj [("eventId", JsonVal.str existingEvent.id)]))
    | none =>
      match trackFeeLogic db agent.feeModelType agent.feeModelConfig
          req.agentId req.walletAddress req.creditsToDeduct with
      | Except.error e => (db, TrackResp.failure e.1 e.2)
      | Except.ok (balances, feeToDeduct, creditsCost) =>
        let newEvent : UsageEvent :=
          ⟨newId, UsageEventStatus.PENDING, feeToDeduct, creditsCost,
            req.idempotencyKey, req.agentId, req.walletAddress⟩
        ({ db with balances := balances, events := newEvent :: db.events },
          TrackResp.success (JsonVal.str newId))

/-! ## The capture route (`POST /api/capture`) -/

/-- Response shape shared by the capture and release routes. -/
inductive SimpleResp where
  | success (eventId : String)
  | failure (status : ℕ) (message : String)
deriving DecidableEq, Repr

/-- `prisma.usageEvent.update(\x7bwhere: \x7bid, status: "PENDING"\x7d, data: \x7bstatus:
"CAPTURED"\x7d\x7d)` (part_008): the update succeeds only when the row exists with
status PENDING; otherwise Prisma raises P2025, which the route maps to a 404. -/
def capture (db : DbState) (eventId : String) : DbState × SimpleResp :=
  match db.events.find? (fun e => e.id == eventId && e.status == UsageEventStatus.PENDING) with
  | none => (db, SimpleResp.failure 404 "Event not found or not in a capturable state.")
  | some e =>
      ({ db with events := db.events.map (fun ev =>
          if ev.id == eventId && ev.status == UsageEventStatus.PENDING then
            { ev with status := UsageEventStatus.CAPTURED }
          else ev) },
        SimpleResp.success e.id)

/-! ## The release route (`POST /api/release`) -/

/-- `tx.userBalance.update` on the primary key with
`data: \x7bethBalance: feeDeducted ? \x7bincrement: feeDeducted\x7d : undefined,
creditBalance: creditsDeducted ? \x7bincrement: creditsDeducted\x7d : undefined\x7d`.
Returns `none` (P2025) when the row is missing. -/
def incrementBalance (rows : List UserBalance) (w a : String)
    (fee : Option ℚ) (credits : Option ℤ) : Option (List UserBalance) :=
  if rows.any (fun r => r.userWalletAddress == w && r.agentId == a) then
    some (rows.map (fun r =>
      if r.userWalletAddress == w && r.agentId == a then
        { r with
            ethBalance := r.ethBalance + fee.getD 0
            creditBalance := r.creditBalance + credits.getD 0 }
      else r))
  else none

/-- `tx.usageEvent.update(\x7bwhere: \x7bid\x7d, data: \x7bstatus: "CANCELLED"\x7d\x7d)`. -/
def setEventCancelled (events : List UsageEvent) (eventId : String) : List UsageEvent :=
  events.map (fun e =>
    if e.id == eventId then { e with status := UsageEventStatus.CANCELLED } else e)

/-- `shouldRefund = feeDeducted?.gt(0) || (creditsDeducted && creditsDeducted >
BigInt(0))`. -/
def shouldRefund (fee : Option ℚ) (credits : Option ℤ) : Bool :=
  (match fee with
    | some f => decide (0 < f)
    | none => false) ||
  (match credits with
    | some c => decide (0 < c)
    | none => false)

/-- The `release` route (release/route.ts): in one transaction, load the event
filtered to status PENDING (404 when absent), refund the recorded deduction
when positive, and set the event CANCELLED.  A P2025 from the balance update
aborts the transaction and is mapped to the same 404 by the route's catch. -/
def release (db : DbState) (eventId : String) : DbState × SimpleResp :=
  match db.events.find? (fun e => e.id == eventId && e.status == UsageEventStatus.PENDING) with
  | none => (db, SimpleResp.failure 404 "Event not found or not in a releasable state.")
  | some ev =>
    if shouldRefund ev.feeDeducted ev.creditsDeducted then
      match incrementBalance db.balances ev.userWalletAddress ev.agentId
          ev.feeDeducted ev.creditsDeducted with
      | none => (db, SimpleResp.failure 404 "Event not found or not in a releasable state.")
      | some balances =>
          ({ db with balances := balances, events := setEventCancelled db.events eventId },
            SimpleResp.success eventId)
    else
      ({ db with events := setEventCancelled db.events eventId },
        SimpleResp.success eventId)

/-! ## The top-up confirmation worker -/

/-- JS truthiness of a `bigint | null` value (`0n` and `null` are falsy). -/
def bigintTruthy : Option ℤ → Bool
  | some c => decide (c ≠ 0)
  | none => false

/-- `simulateTransactionConfirmation` (top-up-details/route.ts lines 170-263):
reload the `TopUpTransaction`; abort when missing or not PENDING; reload the
agent (a missing agent throws, and the catch marks the transaction FAILED with
a diagnostic); otherwise, in one transaction, upsert the `UserBalance` for
(wallet, agent) and mark the transaction CONFIRMED. -/
def simulateTransactionConfirmation (db : DbState) (txHash : String) : DbState :=
  match db.findTopUp txHash with
  | none => db
  | some topUpRecord =>
    if topUpRecord.status ≠ TopUpStatus.PENDING then db
    else
      match db.findAgent topUpRecord.agentId with
      | none =>
          { db with topUps := db.topUps.map (fun t =>
              if t.txHash == txHash then
                { t with status := TopUpStatus.FAILED,
                         errorMessage := some "Agent not found during confirmation" }
              else t) }
      | some agent =>
        let w := topUpRecord.userWalletAddress
        let a := topUpRecord.agentId
        let ethCreate : ℚ :=
          if agent.feeModelType = FeeModelType.FREE_TIER then topUpRecord.amountInEth else 0
        let credCreate : ℤ :=
          if agent.feeModelType = FeeModelType.CREDIT_BASED ∧
              bigintTruthy topUpRecord.creditsToTopUp then
            topUpRecord.creditsToTopUp.getD 0
          else 0
        let balances :=
          if db.balances.any (fun r => r.userWalletAddress == w && r.agentId == a) then
            db.balances.map (fun r =>
              if r.userWalletAddress == w && r.agentId == a then
                { r with
                    ethBalance := r.ethBalance + ethCreate
                    creditBalance := r.creditBalance + credCreate }
              else r)
          else
            (⟨w, a, ethCreate, credCreate⟩ : UserBalance) :: db.balances
        { db with
            balances := balances
            topUps := db.topUps.map (fun t =>
              if t.txHash == txHash then { t with status := TopUpStatus.CONFIRMED } else t) }

/-! ## The SDK retry loop (`_apiCall` / `isErrorRetryable`) -/

/-- The outcome of one `fetch` attempt inside `_apiCall`: success, an
`EarnKitApiError` thrown for a non-ok HTTP response, an `AbortError` from the
timeout controller, or a network-level failure. -/
inductive FetchResult where
  | success
  | apiError (status : ℕ)
  | abortError
  | networkError
deriving DecidableEq, Repr

/-- `isErrorRetryable`: anything that is not an `EarnKitApiError` (network
failures, aborts) is retryable; an `EarnKitApiError` is retryable exactly for
5xx statuses and 408. -/
def isErrorRetryable : FetchResult → Bool
  | FetchResult.apiError status =>
      (decide (500 ≤ status) && decide (status ≤ 599)) || decide (status = 408)
  | _ => true

/-- `const MAX_RETRIES = 2; // 1 initial attempt + 2 retries`. -/
def MAX_RETRIES : ℕ := 2

/-- The observable trace of one `_apiCall` invocation: how many attempts ran,
the backoff delays (ms) slept between attempts, and the final outcome. -/
structure ApiCallTrace where
  attemptsMade : ℕ
  delays : List ℕ
  succeeded : Bool
  thrown : Option FetchResult
deriving DecidableEq, Repr

/-- The retry loop of `_apiCall` (`for (let i = 0; i <= MAX_RETRIES; i++)`);
`attempt i` is what the i-th fetch does.  On failure the loop breaks when the
error is not retryable or `i === MAX_RETRIES`, else sleeps `1000 * 2 ** i` ms
and retries.  `fuel` counts the remaining loop iterations. -/
def apiCallGo (attempt : ℕ → FetchResult) (i fuel : ℕ) : ApiCallTrace :=
  match fuel with
  | 0 => ⟨0, [], false, none⟩
  | Nat.succ fuel =>
    match attempt i with
    | FetchResult.success => ⟨1, [], true, none⟩
    | e =>
      if !isErrorRetryable e || i == MAX_RETRIES then
        ⟨1, [], false, some e⟩
      else
        let rest := apiCallGo attempt (i + 1) fuel
        ⟨rest.attemptsMade + 1, 1000 * 2 ^ i :: rest.delays, rest.succeeded, rest.thrown⟩

/-- One `_apiCall` invocation. -/
def apiCall (attempt : ℕ → FetchResult) : ApiCallTrace :=
  apiCallGo attempt 0 (MAX_RETRIES + 1)

/-! ## Concrete fixtures (used by witness theorems) -/

/-- A FREE_TIER agent with threshold 3 and rate 5. -/
def agentFree : Agent := ⟨"agent-free", FeeModelType.FREE_TIER, ⟨3, 5, 10⟩⟩

/-- A CREDIT_BASED agent charging 10 credits per prompt. -/
def agentCredit : Agent := ⟨"agent-credit", FeeModelType.CREDIT_BASED, ⟨0, 0, 10⟩⟩

def wallet1 : String := "0x1111"

def wallet2 : String := "0x2222"

/-- Three CAPTURED usage events of `wallet1` against `agentFree`. -/
def capturedEvents3 : List UsageEvent :=
  [⟨"c1", UsageEventStatus.CAPTURED, some 5, none, none, "agent-free", wallet1⟩,
   ⟨"c2", UsageEventStatus.CAPTURED, some 5, none, none, "agent-free", wallet1⟩,
   ⟨"c3", UsageEventStatus.CAPTURED, some 5, none, none, "agent-free", wallet1⟩]

/-- Two CAPTURED usage events of `wallet1` against `agentFree`. -/
def capturedEvents2 : List UsageEvent := capturedEvents3.take 2

/-- A PENDING event carrying an idempotency key. -/
def pendingEvent1 : UsageEvent :=
  ⟨"e1", UsageEventStatus.PENDING, none, none, some "key-1", "agent-free", wallet1⟩

/-- A PENDING event with a recorded 5-ETH deduction. -/
def pendingEvent2 : UsageEvent :=
  ⟨"e2", UsageEventStatus.PENDING, some 5, none, none, "agent-free", wallet1⟩

def dbReplay : DbState := ⟨[agentFree], [], [pendingEvent1], []⟩

def dbInsufficient : DbState :=
  ⟨[agentFree], [⟨wallet1, "agent-free", 3, 0⟩], capturedEvents3, []⟩

def dbCharge : DbState :=
  ⟨[agentFree], [⟨wallet1, "agent-free", 7, 0⟩], capturedEvents3, []⟩

def dbBelow : DbState :=
  ⟨[agentFree], [⟨wallet1, "agent-free", 7, 0⟩], capturedEvents2, []⟩

def dbPendingCapture : DbState :=
  ⟨[agentFree], [⟨wallet1, "agent-free", 2, 0⟩], [pendingEvent2], []⟩

def topUpPending : TopUpTransaction :=
  ⟨"0xhash", TopUpStatus.PENDING, wallet1, "agent-free", 11, none, none⟩

def topUpConfirmed : TopUpTransaction :=
  ⟨"0xhash", TopUpStatus.CONFIRMED, wallet1, "agent-free", 11, none, none⟩

def dbTopUp : DbState := ⟨[agentFree], [], [], [topUpPending]⟩

def dbTopUpDone : DbState := ⟨[agentFree], [], [], [topUpConfirmed]⟩

/-- An attempt function whose every fetch yields an HTTP 404 response. -/
def attempt404 : ℕ → FetchResult := fun _ => FetchResult.apiError 404

/-! ## Well-formedness predicates (database constraints) -/

/-- Every balance row is non-negative (the invariant of claim C1). -/
def balancesNonneg (rows : List UserBalance) : Prop :=
  ∀ r ∈ rows, 0 ≤ r.ethBalance ∧ 0 ≤ r.creditBalance

instance (rows : List UserBalance) : Decidable (balancesNonneg rows) :=
  List.decidableBAll _ rows

/-- (`userWalletAddress`, `agentId`) is the primary key of `UserBalance`:
two rows with the same key coincide. -/
def pkUnique (rows : List UserBalance) : Prop :=
  ∀ r ∈ rows, ∀ s ∈ rows,
    r.userWalletAddress = s.userWalletAddress → r.agentId = s.agentId → r = s

instance (rows : List UserBalance) : Decidable (pkUnique rows) := by
  unfold pkUnique; infer_instance

/-- A sequence of `track` calls (each with the id Prisma would generate),
applied left to right. -/
def runTracks (db : DbState) (calls : List (String × TrackRequest)) : DbState :=
  calls.foldl (fun d c => (track d c.1 c.2).1) db

/-! ## Helper lemmas -/

theorem find?_map_invariant {α : Type} (l : List α) (f : α → α) (p : α → Bool)
    (h : ∀ x, p (f x) = p x) :
    (l.map f).find? p = (l.find? p).map f := by
  rw [List.find?_map, show p ∘ f = p from funext h]

theorem decrementEthGuarded_nonneg {rows rows' : List UserBalance} {w a : String}
    {fee : ℚ} (hup : decrementEthGuarded rows w a fee = some rows')
    (h : balancesNonneg rows) : balancesNonneg rows' := by
  unfold decrementEthGuarded at hup
  split at hup
  · cases hup
    intro r hr
    rcases List.mem_map.mp hr with ⟨s, hs, rfl⟩
    split
    · next hcond =>
      simp only [Bool.and_eq_true, decide_eq_true_eq] at hcond
      exact ⟨sub_nonneg.mpr hcond.2, (h s hs).2⟩
    · exact h s hs
  · cases hup

theorem decrementCreditGuarded_nonneg {rows rows' : List UserBalance} {w a : String}
    {cost : ℤ} (hup : decrementCreditGuarded rows w a cost = some rows')
    (h : balancesNonneg rows) : balancesNonneg rows' := by
  unfold decrementCreditGuarded at hup
  split at hup
  · cases hup
    intro r hr
    rcases List.mem_map.mp hr with ⟨s, hs, rfl⟩
    split
    · next hcond =>
      simp only [Bool.and_eq_true, decide_eq_true_eq] at hcond
      exact ⟨(h s hs).1, sub_nonneg.mpr hcond.2⟩
    · exact h s hs
  · cases hup

theorem trackFeeLogic_nonneg {db : DbState} {ft : FeeModelType} {cfg : FeeModelConfig}
    {agentId w : String} {credits : Option ℤ} {rows' : List UserBalance}
    {fee : Option ℚ} {cred : Option ℤ}
    (hok : trackFeeLogic db ft cfg agentId w credits = Except.ok (rows', fee, cred))
    (h : balancesNonneg db.balances) : balancesNonneg rows' := by
  unfold trackFeeLogic at hok
  cases ft with
  | FREE_TIER =>
    dsimp at hok
    split at hok
    · cases hup : decrementEthGuarded db.balances w agentId cfg.rate with
      | none => rw [hup] at hok; cases hok
      | some b => rw [hup] at hok; cases hok; exact decrementEthGuarded_nonneg hup h
    · cases hok; exact h
  | CREDIT_BASED =>
    dsimp at hok
    cases hup : decrementCreditGuarded db.balances w agentId (credits.getD cfg.creditsPerPrompt) with
    | none => rw [hup] at hok; cases hok
    | some b => rw [hup] at hok; cases hok; exact decrementCreditGuarded_nonneg hup h

theorem track_preserves_nonneg (db : DbState) (newId : String) (req : TrackRequest)
    (h : balancesNonneg db.balances) :
    balancesNonneg (track db newId req).1.balances := by
  unfold track
  cases hag : db.findAgent req.agentId with
  | none => exact h
  | some agent =>
    dsimp only
    cases hid : req.idempotencyKey.bind (fun k => db.findEventByIdemKey req.agentId k) with
    | some e => exact h
    | none =>
      dsimp only
      cases hfee : trackFeeLogic db agent.feeModelType agent.feeModelConfig
          req.agentId req.walletAddress req.creditsToDeduct with
      | error e => exact h
      | ok r =>
        obtain ⟨rows', fee, cred⟩ := r
        exact trackFeeLogic_nonneg hfee h

theorem decrementEthGuarded_none {rows : List UserBalance} {w a : String} {fee : ℚ}
    (h : ∀ r ∈ rows, r.userWalletAddress = w → r.agentId = a → r.ethBalance < fee) :
    decrementEthGuarded rows w a fee = none := by
  unfold decrementEthGuarded
  have hany : rows.any (fun r =>
      r.userWalletAddress == w && r.agentId == a && decide (fee ≤ r.ethBalance)) = false := by
    rw [Bool.eq_false_iff]
    intro hc
    rcases List.any_eq_true.mp hc with ⟨r, hr, hcond⟩
    simp only [Bool.and_eq_true, beq_iff_eq, decide_eq_true_eq] at hcond
    exact absurd hcond.2 (not_le.mpr (h r hr hcond.1.1 hcond.1.2))
  simp [hany]

theorem decrementCreditGuarded_none {rows : List UserBalance} {w a : String} {cost : ℤ}
    (h : ∀ r ∈ rows, r.userWalletAddress = w → r.agentId = a → r.creditBalance < cost) :
    decrementCreditGuarded rows w a cost = none := by
  unfold decrementCreditGuarded
  have hany : rows.any (fun r =>
      r.userWalletAddress == w && r.agentId == a && decide (cost ≤ r.creditBalance)) = false := by
    rw [Bool.eq_false_iff]
    intro hc
    rcases List.any_eq_true.mp hc with ⟨r, hr, hcond⟩
    simp only [Bool.and_eq_true, beq_iff_eq, decide_eq_true_eq] at hcond
    exact absurd hcond.2 (not_le.mpr (h r hr hcond.1.1 hcond.1.2))
  simp [hany]

theorem runTracks_nonneg (calls : List (String × TrackRequest)) :
    ∀ db : DbState, balancesNonneg db.balances →
      balancesNonneg (runTracks db calls).balances := by
  induction calls with
  | nil => intro db h; exact h
  | cons c cs ih =>
    intro db h
    exact ih (track db c.1 c.2).1 (track_preserves_nonneg db c.1 c.2 h)

theorem track_eq_noAgent {db : DbState} {newId : String} {req : TrackRequest}
    (hag : db.findAgent req.agentId = none) :
    track db newId req = (db, TrackResp.failure 404 "Agent not found") := by
  unfold track
  rw [hag]

theorem track_eq_replay {db : DbState} {newId : String} {req : TrackRequest}
    {agent : Agent} {k : String} {e : UsageEvent}
    (hag : db.findAgent req.agentId = some agent)
    (hkey : req.idempotencyKey = some k)
    (hev : db.findEventByIdemKey req.agentId k = some e) :
    track db newId req =
      (db, TrackResp.success (JsonVal.obj [("eventId", JsonVal.str e.id)])) := by
  unfold track
  rw [hag]
  dsimp only
  rw [hkey]
  dsimp only [Option.bind]
  rw [hev]

theorem track_eq_error {db : DbState} {newId : String} {req : TrackRequest}
    {agent : Agent} {st : ℕ} {msg : String}
    (hag : db.findAgent req.agentId = some agent)
    (hid : req.idempotencyKey.bind (fun k => db.findEventByIdemKey req.agentId k) = none)
    (hfee : trackFeeLogic db agent.feeModelType agent.feeModelConfig
      req.agentId req.walletAddress req.creditsToDeduct = Except.error (st, msg)) :
    track db newId req = (db, TrackResp.failure st msg) := by
  unfold track
  rw [hag]
  dsimp only
  rw [hid]
  dsimp only
  rw [hfee]

theorem track_eq_ok {db : DbState} {newId : String} {req : TrackRequest}
    {agent : Agent} {rows' : List UserBalance} {fee : Option ℚ} {cred : Option ℤ}
    (hag : db.findAgent req.agentId = some agent)
    (hid : req.idempotencyKey.bind (fun k => db.findEventByIdemKey req.agentId k) = none)
    (hfee : trackFeeLogic db agent.feeModelType agent.feeModelConfig
      req.agentId req.walletAddress req.creditsToDeduct = Except.ok (rows', fee, cred)) :
    track db newId req =
      ({ db with
          balances := rows'
          events := (⟨newId, UsageEventStatus.PENDING, fee, cred, req.idempotencyKey,
            req.agentId, req.walletAddress⟩ : UsageEvent) :: db.events },
        TrackResp.success (JsonVal.str newId)) := by
  unfold track
  rw [hag]
  dsimp only
  rw [hid]
  dsimp only
  rw [hfee]

theorem trackFeeLogic_inv {db : DbState} {ft : FeeModelType} {cfg : FeeModelConfig}
    {agentId w : String} {credits : Option ℤ} {rows' : List UserBalance}
    {fee : Option ℚ} {cred : Option ℤ}
    (hok : trackFeeLogic db ft cfg agentId w credits = Except.ok (rows', fee, cred)) :
    (fee = none ∧ cred = none ∧ rows' = db.balances) ∨
    (fee = some cfg.rate ∧ cred = none ∧
      decrementEthGuarded db.balances w agentId cfg.rate = some rows') ∨
    (fee = none ∧ cred = some (credits.getD cfg.creditsPerPrompt) ∧
      decrementCreditGuarded db.balances w agentId (credits.getD cfg.creditsPerPrompt) =
        some rows') := by
  unfold trackFeeLogic at hok
  cases ft with
  | FREE_TIER =>
    dsimp only at hok
    split at hok
    · cases hup : decrementEthGuarded db.balances w agentId cfg.rate with
      | none => rw [hup] at hok; cases hok
      | some b =>
        rw [hup] at hok
        cases hok
        exact Or.inr (Or.inl ⟨rfl, rfl, hup ▸ rfl⟩)
    · cases hok
      exact Or.inl ⟨rfl, rfl, rfl⟩
  | CREDIT_BASED =>
    dsimp only at hok
    cases hup : decrementCreditGuarded db.balances w agentId (credits.getD cfg.creditsPerPrompt) with
    | none => rw [hup] at hok; cases hok
    | some b =>
      rw [hup] at hok
      cases hok
      exact Or.inr (Or.inr ⟨rfl, rfl, hup ▸ rfl⟩)

/-! ## Claim theorems -/

/-- C1: every charging `track` call decrements a balance only through the
conditional update guarded by `ethBalance >= amount` (resp. `creditBalance >=
amount`); when no `UserBalance` row satisfies the guard (row missing or
insufficient) the call fails with 402 insufficient-funds/insufficient-credits,
mutates nothing and creates no event — hence balances never become negative
under any sequence of `track` calls. -/
theorem track_guarded_decrement_never_negative
    (db : DbState) (h : balancesNonneg db.balances) :
    (∀ calls : List (String × TrackRequest),
      balancesNonneg (runTracks db calls).balances) ∧
    (∀ (newId : String) (req : TrackRequest) (agent : Agent),
      db.findAgent req.agentId = some agent →
      req.idempotencyKey.bind (fun k => db.findEventByIdemKey req.agentId k) = none →
      ((agent.feeModelType = FeeModelType.FREE_TIER →
        agent.feeModelConfig.threshold ≤
          usageCountCaptured db req.agentId req.walletAddress →
        (∀ r ∈ db.balances, r.userWalletAddress = req.walletAddress →
          r.agentId = req.agentId → r.ethBalance < agent.feeModelConfig.rate) →
        track db newId req =
          (db, TrackResp.failure 402 "Insufficient funds. Please top up your balance.")) ∧
      (agent.feeModelType = FeeModelType.CREDIT_BASED →
        (∀ r ∈ db.balances, r.userWalletAddress = req.walletAddress →
          r.agentId = req.agentId →
          r.creditBalance < req.creditsToDeduct.getD agent.feeModelConfig.creditsPerPrompt) →
        track db newId req =
          (db, TrackResp.failure 402 "Insufficient credits. Please buy more.")))) := by
  constructor
  · intro calls
    exact runTracks_nonneg calls db h
  · intro newId req agent hag hid
    constructor
    · intro hft hth hguard
      have hfee : trackFeeLogic db agent.feeModelType agent.feeModelConfig
          req.agentId req.walletAddress req.creditsToDeduct =
          Except.error (402, "Insufficient funds. Please top up your balance.") := by
        unfold trackFeeLogic
        rw [hft]
        dsimp only
        rw [if_pos hth, decrementEthGuarded_none hguard]
      unfold track
      rw [hag]
      dsimp only
      rw [hid]
      dsimp only
      rw [hfee]
    · intro hcb hguard
      have hfee : trackFeeLogic db agent.feeModelType agent.feeModelConfig
          req.agentId req.walletAddress req.creditsToDeduct =
          Except.error (402, "Insufficient credits. Please buy more.") := by
        unfold trackFeeLogic
        rw [hcb]
        dsimp only
        rw [decrementCreditGuarded_none hguard]
      unfold track
      rw [hag]
      dsimp only
      rw [hid]
      dsimp only
      rw [hfee]

/-- C2: the balance decrement and the creation of the PENDING `UsageEvent`
recording `feeDeducted`/`creditsDeducted` are atomic: a `track` call that
returns an error leaves the store untouched, and a successful call either
replays (changing nothing) or adds exactly one PENDING event whose recorded
deduction matches the guarded balance update that was applied. -/
theorem track_atomic (db : DbState) (newId : String) (req : TrackRequest) :
    (∀ st msg, (track db newId req).2 = TrackResp.failure st msg →
      (track db newId req).1 = db) ∧
    (∀ v, (track db newId req).2 = TrackResp.success v →
      (track db newId req).1 = db ∨
      ∃ (fee : Option ℚ) (credits : Option ℤ),
        (track db newId req).1.events =
          (⟨newId, UsageEventStatus.PENDING, fee, credits, req.idempotencyKey,
            req.agentId, req.walletAddress⟩ : UsageEvent) :: db.events ∧
        (track db newId req).1.agents = db.agents ∧
        (track db newId req).1.topUps = db.topUps ∧
        ((fee = none ∧ credits = none ∧ (track db newId req).1.balances = db.balances) ∨
         (∃ f, fee = some f ∧ credits = none ∧
           decrementEthGuarded db.balances req.walletAddress req.agentId f =
             some (track db newId req).1.balances) ∨
         (∃ c, fee = none ∧ credits = some c ∧
           decrementCreditGuarded db.balances req.walletAddress req.agentId c =
             some (track db newId req).1.balances))) := by
  cases hag : db.findAgent req.agentId with
  | none =>
    rw [track_eq_noAgent hag]
    exact ⟨fun st msg _ => rfl, fun v hv => by cases hv⟩
  | some agent =>
    cases hkey : req.idempotencyKey with
    | some k =>
      cases hev : db.findEventByIdemKey req.agentId k with
      | some e =>
        rw [track_eq_replay hag hkey hev]
        refine ⟨fun st msg hv => ?_, fun v hv => Or.inl rfl⟩
        cases hv
      | none =>
        have hid : req.idempotencyKey.bind
            (fun k => db.findEventByIdemKey req.agentId k) = none := by
          rw [hkey, Option.some_bind, hev]
        cases hfee : trackFeeLogic db agent.feeModelType agent.feeModelConfig
            req.agentId req.walletAddress req.creditsToDeduct with
        | error e =>
          obtain ⟨st, msg⟩ := e
          rw [track_eq_error hag hid hfee]
          exact ⟨fun _ _ _ => rfl, fun v hv => by cases hv⟩
        | ok r =>
          obtain ⟨rows', fee, cred⟩ := r
          rw [track_eq_ok hag hid hfee, hkey]
          dsimp only
          constructor
          · intro st msg hv
            cases hv
          · refine fun v _ => Or.inr ⟨fee, cred, rfl, rfl, rfl, ?_⟩
            rcases trackFeeLogic_inv hfee with hcase | ⟨hf, hc, hup⟩ | ⟨hf, hc, hup⟩
            · exact Or.inl ⟨hcase.1, hcase.2.1, hcase.2.2⟩
            · exact Or.inr (Or.inl ⟨agent.feeModelConfig.rate, hf, hc, hup⟩)
            · exact Or.inr (Or.inr ⟨req.creditsToDeduct.getD agent.feeModelConfig.creditsPerPrompt,
                hf, hc, hup⟩)
    | none =>
      have hid : req.idempotencyKey.bind
          (fun k => db.findEventByIdemKey req.agentId k) = none := by
        rw [hkey, Option.none_bind]
      cases hfee : trackFeeLogic db agent.feeModelType agent.feeModelConfig
          req.agentId req.walletAddress req.creditsToDeduct with
      | error e =>
        obtain ⟨st, msg⟩ := e
        rw [track_eq_error hag hid hfee]
        exact ⟨fun _ _ _ => rfl, fun v hv => by cases hv⟩
      | ok r =>
        obtain ⟨rows', fee, cred⟩ := r
        rw [track_eq_ok hag hid hfee, hkey]
        dsimp only
        constructor
        · intro st msg hv
          cases hv
        · refine fun v _ => Or.inr ⟨fee, cred, rfl, rfl, rfl, ?_⟩
          rcases trackFeeLogic_inv hfee with hcase | ⟨hf, hc, hup⟩ | ⟨hf, hc, hup⟩
          · exact Or.inl ⟨hcase.1, hcase.2.1, hcase.2.2⟩
          · exact Or.inr (Or.inl ⟨agent.feeModelConfig.rate, hf, hc, hup⟩)
          · exact Or.inr (Or.inr ⟨req.creditsToDeduct.getD agent.feeModelConfig.creditsPerPrompt,
              hf, hc, hup⟩)

/-- C4: for a FREE_TIER agent, `track` deducts nothing while the count of this
user's CAPTURED events for this agent is strictly below the threshold, and
deducts exactly `rate` (recorded as `feeDeducted`) once the count reaches the
threshold. -/
theorem track_free_tier_threshold (db : DbState) (newId : String) (req : TrackRequest)
    (agent : Agent)
    (hag : db.findAgent req.agentId = some agent)
    (hid : req.idempotencyKey.bind (fun k => db.findEventByIdemKey req.agentId k) = none)
    (hft : agent.feeModelType = FeeModelType.FREE_TIER) :
    (usageCountCaptured db req.agentId req.walletAddress < agent.feeModelConfig.threshold →
      track db newId req =
        ({ db with events := (⟨newId, UsageEventStatus.PENDING, none, none,
            req.idempotencyKey, req.agentId, req.walletAddress⟩ : UsageEvent) :: db.events },
          TrackResp.success (JsonVal.str newId))) ∧
    (agent.feeModelConfig.threshold ≤ usageCountCaptured db req.agentId req.walletAddress →
      ∀ v, (track db newId req).2 = TrackResp.success v →
        (track db newId req).1.events =
          (⟨newId, UsageEventStatus.PENDING, some agent.feeModelConfig.rate, none,
            req.idempotencyKey, req.agentId, req.walletAddress⟩ : UsageEvent) :: db.events ∧
        decrementEthGuarded db.balances req.walletAddress req.agentId
          agent.feeModelConfig.rate = some (track db newId req).1.balances) := by
  constructor
  · intro hlt
    have hfee : trackFeeLogic db agent.feeModelType agent.feeModelConfig
        req.agentId req.walletAddress req.creditsToDeduct =
        Except.ok (db.balances, none, none) := by
      unfold trackFeeLogic
      rw [hft]
      dsimp only
      rw [if_neg (not_le.mpr hlt)]
    exact track_eq_ok hag hid hfee
  · intro hge v hv
    cases hup : decrementEthGuarded db.balances req.walletAddress req.agentId
        agent.feeModelConfig.rate with
    | none =>
      have hfee : trackFeeLogic db agent.feeModelType agent.feeModelConfig
          req.agentId req.walletAddress req.creditsToDeduct =
          Except.error (402, "Insufficient funds. Please top up your balance.") := by
        unfold trackFeeLogic
        rw [hft]
        dsimp only
        rw [if_pos hge, hup]
      rw [track_eq_error hag hid hfee] at hv
      cases hv
    | some rows =>
      have hfee : trackFeeLogic db agent.feeModelType agent.feeModelConfig
          req.agentId req.walletAddress req.creditsToDeduct =
          Except.ok (rows, some agent.feeModelConfig.rate, none) := by
        unfold trackFeeLogic
        rw [hft]
        dsimp only
        rw [if_pos hge, hup]
      rw [track_eq_ok hag hid hfee]
      dsimp only
      exact ⟨rfl, rfl⟩

/-- C5: `capture` succeeds exactly when a UsageEvent with the given id exists
with status PENDING, transitioning it to CAPTURED and touching nothing else
(balances, agents and top-ups are untouched); otherwise (missing id or any
non-PENDING status, including a second capture of the same event) it fails
with 404 and leaves all state unchanged. -/
theorem capture_pending_only (db : DbState) (eventId : String) :
    ((∃ e ∈ db.events, e.id = eventId ∧ e.status = UsageEventStatus.PENDING) ↔
      (capture db eventId).2 = SimpleResp.success eventId) ∧
    ((capture db eventId).1.balances = db.balances ∧
      (capture db eventId).1.agents = db.agents ∧
      (capture db eventId).1.topUps = db.topUps) ∧
    ((¬ ∃ e ∈ db.events, e.id = eventId ∧ e.status = UsageEventStatus.PENDING) →
      capture db eventId =
        (db, SimpleResp.failure 404 "Event not found or not in a capturable state.")) ∧
    ((capture db eventId).2 = SimpleResp.success eventId →
      (capture db eventId).1.events = db.events.map (fun ev =>
        if ev.id == eventId && ev.status == UsageEventStatus.PENDING then
          { ev with status := UsageEventStatus.CAPTURED } else ev) ∧
      capture (capture db eventId).1 eventId =
        ((capture db eventId).1,
          SimpleResp.failure 404 "Event not found or not in a capturable state.")) := by
  cases hfind : db.events.find?
      (fun e => e.id == eventId && e.status == UsageEventStatus.PENDING) with
  | none =>
    have hemp : ¬ ∃ e ∈ db.events, e.id = eventId ∧ e.status = UsageEventStatus.PENDING := by
      rintro ⟨e, he, h1, h2⟩
      have := List.find?_eq_none.mp hfind e he
      simp [h1, h2] at this
    have hcap : capture db eventId =
        (db, SimpleResp.failure 404 "Event not found or not in a capturable state.") := by
      unfold capture
      rw [hfind]
    rw [hcap]
    refine ⟨⟨fun h => absurd h hemp, fun h => ?_⟩, ⟨rfl, rfl, rfl⟩, fun _ => rfl, fun h => ?_⟩
    · cases h
    · cases h
  | some e =>
    have hpe := List.find?_some hfind
    simp only [Bool.and_eq_true, beq_iff_eq] at hpe
    have hmem : e ∈ db.events := List.mem_of_find?_eq_some hfind
    have hcap : capture db eventId =
        ({ db with events := db.events.map (fun ev =>
            if ev.id == eventId && ev.status == UsageEventStatus.PENDING then
              { ev with status := UsageEventStatus.CAPTURED } else ev) },
          SimpleResp.success e.id) := by
      unfold capture
      rw [hfind]
    rw [hcap]
    dsimp only
    have hnone : (db.events.map (fun ev =>
        if ev.id == eventId && ev.status == UsageEventStatus.PENDING then
          { ev with status := UsageEventStatus.CAPTURED } else ev)).find?
        (fun ev => ev.id == eventId && ev.status == UsageEventStatus.PENDING) = none := by
      rw [List.find?_eq_none]
      intro x hx
      rcases List.mem_map.mp hx with ⟨ev, _, rfl⟩
      by_cases hc : (ev.id == eventId && ev.status == UsageEventStatus.PENDING) = true
      · rw [if_pos hc]
        simp
      · rw [if_neg hc]
        exact fun h => hc h
    refine ⟨⟨fun _ => by rw [hpe.1], fun _ => ⟨e, hmem, hpe.1, hpe.2⟩⟩,
      ⟨rfl, rfl, rfl⟩, fun hne => absurd ⟨e, hmem, hpe.1, hpe.2⟩ hne, fun _ => ⟨rfl, ?_⟩⟩
    unfold capture
    rw [hnone]

theorem map_eq_self_of {α : Type} {l : List α} {f : α → α}
    (h : ∀ x ∈ l, f x = x) : l.map f = l := by
  induction l with
  | nil => rfl
  | cons a t ih =>
    simp only [List.map_cons]
    rw [h a (List.mem_cons_self a t), ih (fun x hx => h x (List.mem_cons_of_mem a hx))]

theorem decrementEthGuarded_zero {rows rows' : List UserBalance} {w a : String}
    (hup : decrementEthGuarded rows w a 0 = some rows') : rows' = rows := by
  unfold decrementEthGuarded at hup
  split at hup
  · cases hup
    refine (map_eq_self_of (fun r hr => ?_)).symm.symm
    split
    · ext <;> simp
    · rfl
  · cases hup

theorem decrementCreditGuarded_zero {rows rows' : List UserBalance} {w a : String}
    (hup : decrementCreditGuarded rows w a 0 = some rows') : rows' = rows := by
  unfold decrementCreditGuarded at hup
  split at hup
  · cases hup
    refine (map_eq_self_of (fun r hr => ?_)).symm.symm
    split
    · ext <;> simp
    · rfl
  · cases hup

theorem incrementBalance_decrementEth {rows rows' : List UserBalance} {w a : String}
    {f : ℚ} (huniq : pkUnique rows)
    (hup : decrementEthGuarded rows w a f = some rows') :
    incrementBalance rows' w a (some f) none = some rows := by
  unfold decrementEthGuarded at hup
  split at hup
  case isFalse => cases hup
  case isTrue hany =>
  cases hup
  rcases List.any_eq_true.mp hany with ⟨r, hr, hcond⟩
  simp only [Bool.and_eq_true, beq_iff_eq, decide_eq_true_eq] at hcond
  unfold incrementBalance
  rw [if_pos]
  · rw [List.map_map]
    congr 1
    refine map_eq_self_of (fun x hx => ?_)
    by_cases hpk : (x.userWalletAddress == w && x.agentId == a) = true
    · simp only [Bool.and_eq_true, beq_iff_eq] at hpk
      have hx_eq : x = r := huniq x hx r hr (hpk.1.trans hcond.1.1.symm) (hpk.2.trans hcond.1.2.symm)
      have hguard : (x.userWalletAddress == w && x.agentId == a &&
          decide (f ≤ x.ethBalance)) = true := by
        simp only [Bool.and_eq_true, beq_iff_eq, decide_eq_true_eq]
        exact ⟨⟨hpk.1, hpk.2⟩, hx_eq ▸ hcond.2⟩
      simp only [Function.comp_apply]
      rw [if_pos hguard, if_pos]
      · ext <;> simp
      · simp only [Bool.and_eq_true, beq_iff_eq]
        exact ⟨hpk.1, hpk.2⟩
    · have hguard : (x.userWalletAddress == w && x.agentId == a &&
          decide (f ≤ x.ethBalance)) = false := by
        rw [Bool.eq_false_iff]
        intro hc
        rw [Bool.and_eq_true] at hc
        exact hpk hc.1
      have hdx : (if (x.userWalletAddress == w && x.agentId == a &&
          decide (f ≤ x.ethBalance)) = true then
            { x with ethBalance := x.ethBalance - f } else x) = x :=
        if_neg (by rw [hguard]; exact Bool.false_ne_true)
      simp only [Function.comp_apply]
      rw [hdx]
      exact if_neg hpk
  · apply List.any_eq_true.mpr
    refine ⟨_, List.mem_map.mpr ⟨r, hr, rfl⟩, ?_⟩
    dsimp only
    split <;>
      · simp only [Bool.and_eq_true, beq_iff_eq]
        exact ⟨hcond.1.1, hcond.1.2⟩

theorem incrementBalance_decrementCredit {rows rows' : List UserBalance} {w a : String}
    {c : ℤ} (huniq : pkUnique rows)
    (hup : decrementCreditGuarded rows w a c = some rows') :
    incrementBalance rows' w a none (some c) = some rows := by
  unfold decrementCreditGuarded at hup
  split at hup
  case isFalse => cases hup
  case isTrue hany =>
  cases hup
  rcases List.any_eq_true.mp hany with ⟨r, hr, hcond⟩
  simp only [Bool.and_eq_true, beq_iff_eq, decide_eq_true_eq] at hcond
  unfold incrementBalance
  rw [if_pos]
  · rw [List.map_map]
    congr 1
    refine map_eq_self_of (fun x hx => ?_)
    by_cases hpk : (x.userWalletAddress == w && x.agentId == a) = true
    · simp only [Bool.and_eq_true, beq_iff_eq] at hpk
      have hx_eq : x = r := huniq x hx r hr (hpk.1.trans hcond.1.1.symm) (hpk.2.trans hcond.1.2.symm)
      have hguard : (x.userWalletAddress == w && x.agentId == a &&
          decide (c ≤ x.creditBalance)) = true := by
        simp only [Bool.and_eq_true, beq_iff_eq, decide_eq_true_eq]
        exact ⟨⟨hpk.1, hpk.2⟩, hx_eq ▸ hcond.2⟩
      simp only [Function.comp_apply]
      rw [if_pos hguard, if_pos]
      · ext <;> simp
      · simp only [Bool.and_eq_true, beq_iff_eq]
        exact ⟨hpk.1, hpk.2⟩
    · have hguard : (x.userWalletAddress == w && x.agentId == a &&
          decide (c ≤ x.creditBalance)) = false := by
        rw [Bool.eq_false_iff]
        intro hc
        rw [Bool.and_eq_true] at hc
        exact hpk hc.1
      have hdx : (if (x.userWalletAddress == w && x.agentId == a &&
          decide (c ≤ x.creditBalance)) = true then
            { x with creditBalance := x.creditBalance - c } else x) = x :=
        if_neg (by rw [hguard]; exact Bool.false_ne_true)
      simp only [Function.comp_apply]
      rw [hdx]
      exact if_neg hpk
  · apply List.any_eq_true.mpr
    refine ⟨_, List.mem_map.mpr ⟨r, hr, rfl⟩, ?_⟩
    dsimp only
    split <;>
      · simp only [Bool.and_eq_true, beq_iff_eq]
        exact ⟨hcond.1.1, hcond.1.2⟩

theorem release_eq_notfound {db : DbState} {eventId : String}
    (hfind : db.events.find?
      (fun e => e.id == eventId && e.status == UsageEventStatus.PENDING) = none) :
    release db eventId =
      (db, SimpleResp.failure 404 "Event not found or not in a releasable state.") := by
  unfold release
  rw [hfind]

theorem release_eq_norefund {db : DbState} {eventId : String} {ev : UsageEvent}
    (hfind : db.events.find?
      (fun e => e.id == eventId && e.status == UsageEventStatus.PENDING) = some ev)
    (hsr : shouldRefund ev.feeDeducted ev.creditsDeducted = false) :
    release db eventId =
      ({ db with events := setEventCancelled db.events eventId },
        SimpleResp.success eventId) := by
  unfold release
  rw [hfind]
  dsimp only
  rw [hsr]
  rfl

theorem release_eq_refund {db : DbState} {eventId : String} {ev : UsageEvent}
    {rows' : List UserBalance}
    (hfind : db.events.find?
      (fun e => e.id == eventId && e.status == UsageEventStatus.PENDING) = some ev)
    (hsr : shouldRefund ev.feeDeducted ev.creditsDeducted = true)
    (hinc : incrementBalance db.balances ev.userWalletAddress ev.agentId
      ev.feeDeducted ev.creditsDeducted = some rows') :
    release db eventId =
      ({ db with balances := rows', events := setEventCancelled db.events eventId },
        SimpleResp.success eventId) := by
  unfold release
  rw [hfind]
  dsimp only
  rw [hsr]
  simp only [if_pos]
  rw [hinc]

/-- C6: `release` of a PENDING event refunds exactly the recorded
`feeDeducted`/`creditsDeducted` (when positive) into the event's
(wallet, agent) balance row and sets the event CANCELLED, atomically; a
`track` followed by `release` restores the pre-track balances exactly; and
`release` of a missing or non-PENDING event fails with 404 and changes
nothing. -/
theorem release_refunds_exactly (db : DbState) (eventId : String) :
    ((∀ e ∈ db.events, e.id = eventId → e.status ≠ UsageEventStatus.PENDING) →
      release db eventId =
        (db, SimpleResp.failure 404 "Event not found or not in a releasable state.")) ∧
    (∀ ev, db.events.find?
        (fun e => e.id == eventId && e.status == UsageEventStatus.PENDING) = some ev →
      (shouldRefund ev.feeDeducted ev.creditsDeducted = false →
        release db eventId =
          ({ db with events := setEventCancelled db.events eventId },
            SimpleResp.success eventId)) ∧
      (shouldRefund ev.feeDeducted ev.creditsDeducted = true →
        ∀ r₀, db.findBalance ev.userWalletAddress ev.agentId = some r₀ →
          (release db eventId).2 = SimpleResp.success eventId ∧
          (release db eventId).1.events = setEventCancelled db.events eventId ∧
          (release db eventId).1.findBalance ev.userWalletAddress ev.agentId =
            some { r₀ with
              ethBalance := r₀.ethBalance + ev.feeDeducted.getD 0
              creditBalance := r₀.creditBalance + ev.creditsDeducted.getD 0 })) ∧
    (∀ (newId : String) (req : TrackRequest) (agent : Agent),
      db.findAgent req.agentId = some agent →
      req.idempotencyKey.bind (fun k => db.findEventByIdemKey req.agentId k) = none →
      pkUnique db.balances →
      0 ≤ agent.feeModelConfig.rate →
      0 ≤ req.creditsToDeduct.getD agent.feeModelConfig.creditsPerPrompt →
      ∀ v, (track db newId req).2 = TrackResp.success v →
        (release (track db newId req).1 newId).1.balances = db.balances ∧
        (release (track db newId req).1 newId).2 = SimpleResp.success newId) := by
  refine ⟨?_, ?_, ?_⟩
  · intro hnone
    apply release_eq_notfound
    rw [List.find?_eq_none]
    intro e he hc
    simp only [Bool.and_eq_true, beq_iff_eq] at hc
    exact hnone e he hc.1 hc.2
  · intro ev hfind
    constructor
    · intro hsr
      exact release_eq_norefund hfind hsr
    · intro hsr r₀ hbal
      have hpk := List.find?_some hbal
      have hmem := List.mem_of_find?_eq_some hbal
      have hany : db.balances.any (fun r =>
          r.userWalletAddress == ev.userWalletAddress && r.agentId == ev.agentId) = true :=
        List.any_eq_true.mpr ⟨r₀, hmem, hpk⟩
      have hinc : incrementBalance db.balances ev.userWalletAddress ev.agentId
          ev.feeDeducted ev.creditsDeducted =
          some (db.balances.map (fun r =>
            if r.userWalletAddress == ev.userWalletAddress && r.agentId == ev.agentId then
              { r with
                  ethBalance := r.ethBalance + ev.feeDeducted.getD 0
                  creditBalance := r.creditBalance + ev.creditsDeducted.getD 0 }
            else r)) := by
        unfold incrementBalance
        rw [if_pos hany]
      rw [release_eq_refund hfind hsr hinc]
      refine ⟨rfl, rfl, ?_⟩
      unfold DbState.findBalance at hbal ⊢
      dsimp only
      rw [find?_map_invariant _ _ _ ?hpres, hbal]
      case hpres =>
        intro x
        by_cases hc : (x.userWalletAddress == ev.userWalletAddress &&
            x.agentId == ev.agentId) = true
        · rw [if_pos hc]
        · rw [if_neg hc]
      dsimp only [Option.map]
      rw [if_pos hpk]
  · intro newId req agent hag hid huniq hrate hcred v hv
    cases hfee : trackFeeLogic db agent.feeModelType agent.feeModelConfig
        req.agentId req.walletAddress req.creditsToDeduct with
    | error e =>
      obtain ⟨st, msg⟩ := e
      rw [track_eq_error hag hid hfee] at hv
      cases hv
    | ok r =>
      obtain ⟨rows2, fee, cred⟩ := r
      have htr := @track_eq_ok db newId req agent rows2 fee cred hag hid hfee
      rw [htr]
      dsimp only
      have hfindN : ((⟨newId, UsageEventStatus.PENDING, fee, cred, req.idempotencyKey,
          req.agentId, req.walletAddress⟩ : UsageEvent) :: db.events).find?
          (fun e => e.id == newId && e.status == UsageEventStatus.PENDING) =
          some (⟨newId, UsageEventStatus.PENDING, fee, cred, req.idempotencyKey,
            req.agentId, req.walletAddress⟩ : UsageEvent) :=
        List.find?_cons_of_pos _ (by simp)
      rcases trackFeeLogic_inv hfee with ⟨hf, hc, hrows⟩ | ⟨hf, hc, hup⟩ | ⟨hf, hc, hup⟩
      · subst hf
        subst hc
        rw [@release_eq_norefund
          { db with
              balances := rows2
              events := (⟨newId, UsageEventStatus.PENDING, none, none, req.idempotencyKey,
                req.agentId, req.walletAddress⟩ : UsageEvent) :: db.events }
          newId
          (⟨newId, UsageEventStatus.PENDING, none, none, req.idempotencyKey,
            req.agentId, req.walletAddress⟩ : UsageEvent)
          hfindN rfl]
        exact ⟨hrows, rfl⟩
      · subst hf
        subst hc
        by_cases h0 : 0 < agent.feeModelConfig.rate
        · have hsr : shouldRefund (some agent.feeModelConfig.rate) (none : Option ℤ) = true := by
            simp [shouldRefund, h0]
          have hinc := incrementBalance_decrementEth huniq hup
          rw [@release_eq_refund
            { db with
                balances := rows2
                events := (⟨newId, UsageEventStatus.PENDING, some agent.feeModelConfig.rate,
                  none, req.idempotencyKey, req.agentId, req.walletAddress⟩ : UsageEvent) ::
                  db.events }
            newId
            (⟨newId, UsageEventStatus.PENDING, some agent.feeModelConfig.rate, none,
              req.idempotencyKey, req.agentId, req.walletAddress⟩ : UsageEvent)
            db.balances hfindN hsr hinc]
          exact ⟨rfl, rfl⟩
        · have hz : agent.feeModelConfig.rate = 0 := le_antisymm (not_lt.mp h0) hrate
          rw [hz] at hup hfindN ⊢
          have hrows := decrementEthGuarded_zero hup
          have hsr : shouldRefund (some (0 : ℚ)) (none : Option ℤ) = false := by
            simp [shouldRefund]
          rw [@release_eq_norefund
            { db with
                balances := rows2
                events := (⟨newId, UsageEventStatus.PENDING, some (0 : ℚ), none,
                  req.idempotencyKey, req.agentId, req.walletAddress⟩ : UsageEvent) ::
                  db.events }
            newId
            (⟨newId, UsageEventStatus.PENDING, some (0 : ℚ), none, req.idempotencyKey,
              req.agentId, req.walletAddress⟩ : UsageEvent)
            hfindN hsr]
          exact ⟨hrows, rfl⟩
      · subst hf
        subst hc
        by_cases h0 : 0 < req.creditsToDeduct.getD agent.feeModelConfig.creditsPerPrompt
        · have hsr : shouldRefund (none : Option ℚ)
              (some (req.creditsToDeduct.getD agent.feeModelConfig.creditsPerPrompt)) = true := by
            simp [shouldRefund, h0]
          have hinc := incrementBalance_decrementCredit huniq hup
          rw [@release_eq_refund
            { db with
                balances := rows2
                events := (⟨newId, UsageEventStatus.PENDING, none,
                  some (req.creditsToDeduct.getD agent.feeModelConfig.creditsPerPrompt),
                  req.idempotencyKey, req.agentId, req.walletAddress⟩ : UsageEvent) ::
                  db.events }
            newId
            (⟨newId, UsageEventStatus.PENDING, none,
              some (req.creditsToDeduct.getD agent.feeModelConfig.creditsPerPrompt),
              req.idempotencyKey, req.agentId, req.walletAddress⟩ : UsageEvent)
            db.balances hfindN hsr hinc]
          exact ⟨rfl, rfl⟩
        · have hz : req.creditsToDeduct.getD agent.feeModelConfig.creditsPerPrompt = 0 :=
            le_antisymm (not_lt.mp h0) hcred
          rw [hz] at hup hfindN ⊢
          have hrows := decrementCreditGuarded_zero hup
          have hsr : shouldRefund (none : Option ℚ) (some (0 : ℤ)) = false := by
            simp [shouldRefund]
          rw [@release_eq_norefund
            { db with
                balances := rows2
                events := (⟨newId, UsageEventStatus.PENDING, none, some (0 : ℤ),
                  req.idempotencyKey, req.agentId, req.walletAddress⟩ : UsageEvent) ::
                  db.events }
            newId
            (⟨newId, UsageEventStatus.PENDING, none, some (0 : ℤ), req.idempotencyKey,
              req.agentId, req.walletAddress⟩ : UsageEvent)
            hfindN hsr]
          exact ⟨hrows, rfl⟩

theorem confirm_eq_missing {db : DbState} {txHash : String}
    (h : db.findTopUp txHash = none) :
    simulateTransactionConfirmation db txHash = db := by
  unfold simulateTransactionConfirmation
  rw [h]

theorem confirm_eq_notPending {db : DbState} {txHash : String} {t : TopUpTransaction}
    (ht : db.findTopUp txHash = some t) (hst : t.status ≠ TopUpStatus.PENDING) :
    simulateTransactionConfirmation db txHash = db := by
  unfold simulateTransactionConfirmation
  rw [ht]
  dsimp only
  rw [if_pos hst]

theorem confirm_eq_noAgent {db : DbState} {txHash : String} {t : TopUpTransaction}
    (ht : db.findTopUp txHash = some t) (hp : t.status = TopUpStatus.PENDING)
    (hag : db.findAgent t.agentId = none) :
    simulateTransactionConfirmation db txHash =
      { db with topUps := db.topUps.map (fun u =>
          if u.txHash == txHash then
            { u with status := TopUpStatus.FAILED,
                     errorMessage := some "Agent not found during confirmation" }
          else u) } := by
  unfold simulateTransactionConfirmation
  rw [ht]
  dsimp only
  rw [if_neg (by rw [hp]; exact fun hcon => hcon rfl)]
  rw [hag]

theorem confirm_eq_success {db : DbState} {txHash : String} {t : TopUpTransaction}
    {agent : Agent}
    (ht : db.findTopUp txHash = some t) (hp : t.status = TopUpStatus.PENDING)
    (hag : db.findAgent t.agentId = some agent) :
    simulateTransactionConfirmation db txHash =
      { db with
          balances :=
            if db.balances.any (fun r => r.userWalletAddress == t.userWalletAddress &&
                r.agentId == t.agentId) then
              db.balances.map (fun r =>
                if r.userWalletAddress == t.userWalletAddress && r.agentId == t.agentId then
                  { r with
                      ethBalance := r.ethBalance +
                        (if agent.feeModelType = FeeModelType.FREE_TIER then t.amountInEth else 0)
                      creditBalance := r.creditBalance +
                        (if agent.feeModelType = FeeModelType.CREDIT_BASED ∧
                            bigintTruthy t.creditsToTopUp then t.creditsToTopUp.getD 0 else 0) }
                else r)
            else
              (⟨t.userWalletAddress, t.agentId,
                (if agent.feeModelType = FeeModelType.FREE_TIER then t.amountInEth else 0),
                (if agent.feeModelType = FeeModelType.CREDIT_BASED ∧
                    bigintTruthy t.creditsToTopUp then t.creditsToTopUp.getD 0 else 0)⟩ :
                UserBalance) :: db.balances
          topUps := db.topUps.map (fun u =>
            if u.txHash == txHash then { u with status := TopUpStatus.CONFIRMED } else u) } := by
  unfold simulateTransactionConfirmation
  rw [ht]
  dsimp only
  rw [if_neg (by rw [hp]; exact fun hcon => hcon rfl)]
  rw [hag]

theorem confirm_findTopUp_after {db : DbState} {txHash : String} {t : TopUpTransaction}
    (ht : db.findTopUp txHash = some t) (hp : t.status = TopUpStatus.PENDING) :
    ∃ t', DbState.findTopUp (simulateTransactionConfirmation db txHash) txHash = some t' ∧
      t'.status ≠ TopUpStatus.PENDING := by
  have htx := List.find?_some ht
  cases hag : db.findAgent t.agentId with
  | none =>
    rw [confirm_eq_noAgent ht hp hag]
    unfold DbState.findTopUp at ht ⊢
    dsimp only
    rw [find?_map_invariant _ _ _ ?hpres, ht]
    case hpres =>
      intro x
      by_cases hc : (x.txHash == txHash) = true
      · rw [if_pos hc]
      · rw [if_neg hc]
    dsimp only [Option.map]
    rw [if_pos htx]
    exact ⟨_, rfl, by intro h; cases h⟩
  | some agent =>
    rw [confirm_eq_success ht hp hag]
    unfold DbState.findTopUp at ht ⊢
    dsimp only
    rw [find?_map_invariant _ _ _ ?hpres, ht]
    case hpres =>
      intro x
      by_cases hc : (x.txHash == txHash) = true
      · rw [if_pos hc]
      · rw [if_neg hc]
    dsimp only [Option.map]
    rw [if_pos htx]
    exact ⟨_, rfl, by intro h; cases h⟩

/-- C7: the confirmation step is exactly-once: a run that finds the
TopUpTransaction missing or non-PENDING changes nothing, and running the step
twice in sequence equals running it once (the second run always aborts on the
non-PENDING status written by the first). -/
theorem confirm_exactly_once (db : DbState) (txHash : String) :
    (db.findTopUp txHash = none → simulateTransactionConfirmation db txHash = db) ∧
    (∀ t, db.findTopUp txHash = some t → t.status ≠ TopUpStatus.PENDING →
      simulateTransactionConfirmation db txHash = db) ∧
    simulateTransactionConfirmation (simulateTransactionConfirmation db txHash) txHash =
      simulateTransactionConfirmation db txHash := by
  refine ⟨fun h => confirm_eq_missing h, fun t ht hst => confirm_eq_notPending ht hst, ?_⟩
  cases hfind : db.findTopUp txHash with
  | none =>
    have h1 := confirm_eq_missing hfind
    rw [h1]
    exact h1
  | some t =>
    by_cases hp : t.status = TopUpStatus.PENDING
    · obtain ⟨t', ht', hst'⟩ := confirm_findTopUp_after hfind hp
      exact confirm_eq_notPending ht' hst'
    · have h1 := confirm_eq_notPending hfind hp
      rw [h1]
      exact h1

theorem credInc_truthy (m : FeeModelType) (c : Option ℤ) :
    (if m = FeeModelType.CREDIT_BASED ∧ bigintTruthy c then c.getD 0 else 0) =
    (if m = FeeModelType.CREDIT_BASED then c.getD 0 else 0) := by
  by_cases hm : m = FeeModelType.CREDIT_BASED
  · cases c with
    | none => simp [hm, bigintTruthy]
    | some k =>
      by_cases hk : k = 0
      · simp [hm, bigintTruthy, hk]
      · simp [hm, bigintTruthy, hk]
  · simp [hm]

/-- C8: for a PENDING TopUpTransaction whose agent exists, the confirmation
step marks it CONFIRMED and upserts the (wallet, agent) UserBalance in the
same transaction: a missing row is created with the confirmed amount as its
initial balance, an existing row is incremented; the credited field is
`ethBalance` (by `amountInEth`) for FREE_TIER and `creditBalance` (by
`creditsToTopUp`, treated as 0 when absent) for CREDIT_BASED. -/
theorem confirm_upsert (db : DbState) (txHash : String) (t : TopUpTransaction)
    (agent : Agent)
    (ht : db.findTopUp txHash = some t) (hp : t.status = TopUpStatus.PENDING)
    (hag : db.findAgent t.agentId = some agent) :
    DbState.findTopUp (simulateTransactionConfirmation db txHash) txHash =
      some { t with status := TopUpStatus.CONFIRMED } ∧
    (db.findBalance t.userWalletAddress t.agentId = none →
      (simulateTransactionConfirmation db txHash).balances =
        (⟨t.userWalletAddress, t.agentId,
          (if agent.feeModelType = FeeModelType.FREE_TIER then t.amountInEth else 0),
          (if agent.feeModelType = FeeModelType.CREDIT_BASED then t.creditsToTopUp.getD 0
            else 0)⟩ : UserBalance) :: db.balances) ∧
    (∀ r₀, db.findBalance t.userWalletAddress t.agentId = some r₀ →
      DbState.findBalance (simulateTransactionConfirmation db txHash)
        t.userWalletAddress t.agentId =
        some { r₀ with
          ethBalance := r₀.ethBalance +
            (if agent.feeModelType = FeeModelType.FREE_TIER then t.amountInEth else 0)
          creditBalance := r₀.creditBalance +
            (if agent.feeModelType = FeeModelType.CREDIT_BASED then t.creditsToTopUp.getD 0
              else 0) }) := by
  have htx := List.find?_some ht
  rw [confirm_eq_success ht hp hag]
  refine ⟨?_, ?_, ?_⟩
  · unfold DbState.findTopUp at ht ⊢
    dsimp only
    rw [find?_map_invariant _ _ _ ?hpres, ht]
    case hpres =>
      intro x
      by_cases hc : (x.txHash == txHash) = true
      · rw [if_pos hc]
      · rw [if_neg hc]
    dsimp only [Option.map]
    rw [if_pos htx]
  · intro hnone
    unfold DbState.findBalance at hnone
    have hanyF : db.balances.any (fun r =>
        r.userWalletAddress == t.userWalletAddress && r.agentId == t.agentId) = false := by
      rw [Bool.eq_false_iff]
      intro hc
      rcases List.any_eq_true.mp hc with ⟨r, hr, hcr⟩
      exact List.find?_eq_none.mp hnone r hr hcr
    dsimp only
    rw [if_neg (by rw [hanyF]; exact Bool.false_ne_true), credInc_truthy]
  · intro r₀ hbal
    have hpk := List.find?_some hbal
    have hmem : r₀ ∈ db.balances := List.mem_of_find?_eq_some hbal
    have hanyT : db.balances.any (fun r =>
        r.userWalletAddress == t.userWalletAddress && r.agentId == t.agentId) = true :=
      List.any_eq_true.mpr ⟨r₀, hmem, hpk⟩
    unfold DbState.findBalance at hbal ⊢
    dsimp only
    rw [if_pos hanyT]
    rw [find?_map_invariant _ _ _ ?hpres2, hbal]
    case hpres2 =>
      intro x
      by_cases hc : (x.userWalletAddress == t.userWalletAddress &&
          x.agentId == t.agentId) = true
      · rw [if_pos hc]
      · rw [if_neg hc]
    dsimp only [Option.map]
    rw [if_pos hpk, credInc_truthy]

theorem apiCallGo_attempts_le (a : ℕ → FetchResult) (fuel : ℕ) :
    ∀ i, (apiCallGo a i fuel).attemptsMade ≤ fuel := by
  induction fuel with
  | zero => intro i; rw [apiCallGo]
  | succ f ih =>
    intro i
    rw [apiCallGo]
    split
    · simp
    · split
      · simp
      · simpa using Nat.succ_le_succ (ih (i + 1))

theorem apiCallGo_attempts_pos (a : ℕ → FetchResult) (i f : ℕ) :
    1 ≤ (apiCallGo a i (f + 1)).attemptsMade := by
  rw [apiCallGo]
  split
  · simp
  · split
    · simp
    · simp

theorem apiCallGo_delays (a : ℕ → FetchResult) (fuel : ℕ) :
    ∀ i, i + fuel = MAX_RETRIES + 1 →
      (apiCallGo a i fuel).delays =
        (List.range ((apiCallGo a i fuel).attemptsMade - 1)).map
          (fun k => 1000 * 2 ^ (i + k)) := by
  induction fuel with
  | zero => intro i hif; rw [apiCallGo]; rfl
  | succ f ih =>
    intro i hif
    rw [apiCallGo]
    split
    · simp
    · split
      · simp
      · next hcond =>
        have hine : i ≠ MAX_RETRIES := by
          intro hi
          apply hcond
          simp [hi]
        have hmr : MAX_RETRIES = 2 := rfl
        have hf1 : 1 ≤ f := by omega
        obtain ⟨f', rfl⟩ : ∃ f', f = f' + 1 := ⟨f - 1, by omega⟩
        have hpos := apiCallGo_attempts_pos a (i + 1) f'
        obtain ⟨m, hm⟩ : ∃ m, (apiCallGo a (i + 1) (f' + 1)).attemptsMade = m + 1 :=
          ⟨(apiCallGo a (i + 1) (f' + 1)).attemptsMade - 1, by omega⟩
        have ihh := ih (i + 1) (by omega)
        dsimp only
        rw [ihh, hm]
        simp only [Nat.add_sub_cancel]
        rw [List.range_succ_eq_map]
        simp only [List.map_cons, List.map_map]
        congr 1
        refine List.map_congr_left (fun k _ => ?_)
        simp only [Function.comp_apply]
        rw [show i + 1 + k = i + Nat.succ k from by omega]

theorem apiCallGo_retried_retryable (a : ℕ → FetchResult) (fuel : ℕ) :
    ∀ i j, j + 1 < (apiCallGo a i fuel).attemptsMade →
      isErrorRetryable (a (i + j)) = true := by
  induction fuel with
  | zero =>
    intro i j h
    rw [apiCallGo] at h
    dsimp only at h
    omega
  | succ f ih =>
    intro i j h
    rw [apiCallGo] at h
    split at h
    · dsimp only at h
      omega
    · split at h
      · dsimp only at h
        omega
      · next hcond =>
        have hret : isErrorRetryable (a i) = true := by
          by_contra hfalse
          rw [Bool.not_eq_true] at hfalse
          apply hcond
          rw [hfalse]
          rfl
        cases j with
        | zero => simpa using hret
        | succ k =>
          dsimp only at h
          have hk := ih (i + 1) k (by omega)
          rw [show i + (k + 1) = i + 1 + k from by omega]
          exact hk

/-- C9: `_apiCall` makes at most `MAX_RETRIES` retries after the initial
attempt, sleeping exponentially increasing backoff delays of 1000 ms and then
2000 ms between attempts; a 4xx response other than 408 is thrown immediately
with no retry; and every retried attempt had failed with a retryable error
(network-level failure, abort/timeout, or a 5xx/408 response). -/
theorem apiCall_retry_policy (attempt : ℕ → FetchResult) :
    (apiCall attempt).attemptsMade ≤ MAX_RETRIES + 1 ∧
    ((apiCall attempt).delays = [] ∨ (apiCall attempt).delays = [1000] ∨
      (apiCall attempt).delays = [1000, 2000]) ∧
    (∀ s, attempt 0 = FetchResult.apiError s → 400 ≤ s → s < 500 → s ≠ 408 →
      apiCall attempt = ⟨1, [], false, some (FetchResult.apiError s)⟩) ∧
    (∀ j, j + 1 < (apiCall attempt).attemptsMade →
      isErrorRetryable (attempt j) = true) := by
  refine ⟨apiCallGo_attempts_le attempt (MAX_RETRIES + 1) 0, ?_, ?_, ?_⟩
  · have hd := apiCallGo_delays attempt (MAX_RETRIES + 1) 0 (by omega)
    have hle := apiCallGo_attempts_le attempt (MAX_RETRIES + 1) 0
    unfold apiCall
    rw [hd]
    have hmr : MAX_RETRIES = 2 := rfl
    have hcases : (apiCallGo attempt 0 (MAX_RETRIES + 1)).attemptsMade - 1 = 0 ∨
        (apiCallGo attempt 0 (MAX_RETRIES + 1)).attemptsMade - 1 = 1 ∨
        (apiCallGo attempt 0 (MAX_RETRIES + 1)).attemptsMade - 1 = 2 := by omega
    rcases hcases with h | h | h <;> rw [h]
    · exact Or.inl rfl
    · exact Or.inr (Or.inl rfl)
    · exact Or.inr (Or.inr rfl)
  · intro s h0 h4a h4b h408
    have hret : isErrorRetryable (FetchResult.apiError s) = false := by
      simp only [isErrorRetryable, Bool.or_eq_false_iff, Bool.and_eq_false_iff,
        decide_eq_false_iff_not]
      constructor
      · left
        omega
      · omega
    unfold apiCall apiCallGo
    rw [h0]
    dsimp only
    rw [if_pos (by rw [hret]; rfl)]
  · intro j h
    have hj := apiCallGo_retried_retryable attempt (MAX_RETRIES + 1) 0 j h
    simpa using hj

/-- C3 (code evaluation at the failing input): on the idempotent replay path
the transaction returns the object `{eventId: existingEvent.id}` where the
fresh path returns the bare id string, so the replayed response's
`data.eventId` field is an object that can never equal the string shape of a
fresh response; no event is created and no balance is mutated. -/
theorem track_replay_response_shape :
    track dbReplay "new-1" ⟨"agent-free", wallet1, some "key-1", none⟩ =
      (dbReplay, TrackResp.success (JsonVal.obj [("eventId", JsonVal.str "e1")])) ∧
    ∀ s, JsonVal.obj [("eventId", JsonVal.str "e1")] ≠ JsonVal.str s := by
  constructor
  · rfl
  · intro s h
    cases h

/-- C10: the idempotent replay path of `track` checks only (agentId,
idempotencyKey): the response and the (unchanged) store are identical for any
two supplied wallet addresses, including ones that differ from the existing
event's recorded `userWalletAddress`, and the existing event's id is returned
with no balance touched. -/
theorem track_replay_no_wallet_check (db : DbState) (newId agentId key : String)
    (agent : Agent) (e : UsageEvent)
    (hag : db.findAgent agentId = some agent)
    (hev : db.findEventByIdemKey agentId key = some e)
    (w₁ w₂ : String) (c₁ c₂ : Option ℤ) :
    track db newId ⟨agentId, w₁, some key, c₁⟩ =
      (db, TrackResp.success (JsonVal.obj [("eventId", JsonVal.str e.id)])) ∧
    track db newId ⟨agentId, w₂, some key, c₂⟩ =
      track db newId ⟨agentId, w₁, some key, c₁⟩ := by
  have h1 := @track_eq_replay db newId ⟨agentId, w₁, some key, c₁⟩ agent key e hag rfl hev
  have h2 := @track_eq_replay db newId ⟨agentId, w₂, some key, c₂⟩ agent key e hag rfl hev
  exact ⟨h1, by rw [h1, h2]⟩

/-! ## Witnesses -/

theorem track_guarded_decrement_never_negative_witness :
    balancesNonneg (runTracks dbInsufficient
      [("n1", ⟨"agent-free", wallet1, none, none⟩)]).balances ∧
    track dbInsufficient "n1" ⟨"agent-free", wallet1, none, none⟩ =
      (dbInsufficient,
        TrackResp.failure 402 "Insufficient funds. Please top up your balance.") := by
  have h := track_guarded_decrement_never_negative dbInsufficient (by decide)
  exact ⟨h.1 _, (h.2 "n1" ⟨"agent-free", wallet1, none, none⟩ agentFree (by decide) rfl).1
    rfl (by decide) (by decide)⟩

theorem track_atomic_witness :
    (track dbInsufficient "n1" ⟨"agent-free", wallet1, none, none⟩).1 = dbInsufficient := by
  exact (track_atomic dbInsufficient "n1" ⟨"agent-free", wallet1, none, none⟩).1
    402 "Insufficient funds. Please top up your balance." rfl

theorem track_free_tier_threshold_witness :
    track dbBelow "n2" ⟨"agent-free", wallet1, none, none⟩ =
      ({ dbBelow with events := (⟨"n2", UsageEventStatus.PENDING, none, none, none,
          "agent-free", wallet1⟩ : UsageEvent) :: dbBelow.events },
        TrackResp.success (JsonVal.str "n2")) ∧
    (track dbCharge "n4" ⟨"agent-free", wallet1, none, none⟩).1.events =
      (⟨"n4", UsageEventStatus.PENDING, some 5, none, none, "agent-free", wallet1⟩ :
        UsageEvent) :: dbCharge.events ∧
    decrementEthGuarded dbCharge.balances wallet1 "agent-free" 5 =
      some (track dbCharge "n4" ⟨"agent-free", wallet1, none, none⟩).1.balances := by
  refine ⟨?_, ?_⟩
  · exact (track_free_tier_threshold dbBelow "n2" ⟨"agent-free", wallet1, none, none⟩
      agentFree (by decide) rfl rfl).1 (by decide)
  · exact (track_free_tier_threshold dbCharge "n4" ⟨"agent-free", wallet1, none, none⟩
      agentFree (by decide) rfl rfl).2 (by decide) (JsonVal.str "n4") rfl

theorem capture_pending_only_witness :
    (capture dbPendingCapture "e2").2 = SimpleResp.success "e2" ∧
    capture (capture dbPendingCapture "e2").1 "e2" =
      ((capture dbPendingCapture "e2").1,
        SimpleResp.failure 404 "Event not found or not in a capturable state.") := by
  have h := capture_pending_only dbPendingCapture "e2"
  have hs : (capture dbPendingCapture "e2").2 = SimpleResp.success "e2" := by decide
  exact ⟨hs, (h.2.2.2 hs).2⟩

theorem release_refunds_exactly_witness :
    (release (track dbCharge "n5" ⟨"agent-free", wallet1, none, none⟩).1 "n5").1.balances =
      dbCharge.balances ∧
    (release (track dbCharge "n5" ⟨"agent-free", wallet1, none, none⟩).1 "n5").2 =
      SimpleResp.success "n5" := by
  exact (release_refunds_exactly dbCharge "unused").2.2 "n5"
    ⟨"agent-free", wallet1, none, none⟩ agentFree (by decide) rfl (by decide)
    (by decide) (by decide) (JsonVal.str "n5") rfl

theorem confirm_exactly_once_witness :
    simulateTransactionConfirmation dbTopUpDone "0xhash" = dbTopUpDone ∧
    simulateTransactionConfirmation (simulateTransactionConfirmation dbTopUp "0xhash")
      "0xhash" = simulateTransactionConfirmation dbTopUp "0xhash" := by
  exact ⟨(confirm_exactly_once dbTopUpDone "0xhash").2.1 topUpConfirmed (by decide)
    (by decide), (confirm_exactly_once dbTopUp "0xhash").2.2⟩

theorem confirm_upsert_witness :
    DbState.findTopUp (simulateTransactionConfirmation dbTopUp "0xhash") "0xhash" =
      some { topUpPending with status := TopUpStatus.CONFIRMED } ∧
    (simulateTransactionConfirmation dbTopUp "0xhash").balances =
      (⟨wallet1, "agent-free", 11, 0⟩ : UserBalance) :: dbTopUp.balances := by
  have h := confirm_upsert dbTopUp "0xhash" topUpPending agentFree (by decide) rfl
    (by decide)
  exact ⟨h.1, h.2.1 (by decide)⟩

theorem apiCall_retry_policy_witness :
    apiCall attempt404 = ⟨1, [], false, some (FetchResult.apiError 404)⟩ := by
  exact (apiCall_retry_policy attempt404).2.2.1 404 rfl (by omega) (by omega) (by omega)

theorem track_replay_no_wallet_check_witness :
    track dbReplay "n9" ⟨"agent-free", wallet2, some "key-1", none⟩ =
      (dbReplay, TrackResp.success (JsonVal.obj [("eventId", JsonVal.str "e1")])) ∧
    track dbReplay "n9" ⟨"agent-free", wallet1, some "key-1", none⟩ =
      track dbReplay "n9" ⟨"agent-free", wallet2, some "key-1", none⟩ := by
  have h := track_replay_no_wallet_check dbReplay "n9" "agent-free" "key-1" agentFree
    pendingEvent1 (by decide) (by decide) wallet2 wallet1 none none
  exact ⟨h.1, h.2⟩

end EarnKit
